import Mathlib

/-!
Verification of the connection-ID generator subsystem of quinn-proto
(src/quinn-proto/src/cid_generator.rs): the `ConnectionIdGenerator` trait,
`RandomConnectionIdGenerator` and `HashedConnectionIdGenerator`.

Machine integers are embedded as `Nat` with explicit reduction modulo `2 ^ 64`
where the Rust code wraps; byte strings are lists of naturals below 256.
Panicking operations (`debug_assert!`, out-of-bounds `split_at`) are embedded
as `Option`, with `none` for the panic branch.  The thread-local random source
is embedded as a byte stream `Nat → Nat` supplied by the caller: `fill_bytes`
of `n` bytes reads positions `0, …, n-1` of the stream.
-/

/-- Modelled from the spec: `MAX_CID_SIZE` lives in quinn-proto's lib.rs, which is
not part of the sources here; the spec fixes the protocol-wide maximum CID size
at 20 bytes. -/
def MAX_CID_SIZE : Nat := 20

/-- Modelled from the spec: `ConnectionId` (quinn-proto's shared.rs, not part of the
sources here) is an immutable byte sequence with byte-wise equality and no further
structure. -/
abbrev ConnectionId := List Nat

/-- Modelled from the spec: `ConnectionId::new` copies the given bytes verbatim. -/
def ConnectionId.new (bytes : List Nat) : ConnectionId := bytes

/-- `NONCE_LEN` from cid_generator.rs: 3 bytes of random nonce. -/
def NONCE_LEN : Nat := 3

/-- `SIGNATURE_LEN` from cid_generator.rs: `8 - NONCE_LEN`, for an 8-byte total CID. -/
def SIGNATURE_LEN : Nat := 8 - NONCE_LEN

/-! ### The keyed hash primitive

The hash is the external crate `rustc_hash::FxHasher`, which the spec treats as
an opaque deterministic keyed-hash capability with a 64-bit digest.  We embed
it concretely as rustc-hash v1's `FxHasher` on a 64-bit little-endian target:
state is a 64-bit word, each absorbed machine word rotates the state left by 5,
XORs the word in and multiplies by a fixed odd seed, wrapping at `2 ^ 64`. -/

/-- The multiplicative seed of FxHasher (64-bit). -/
def fxSeed : Nat := 0x517cc1b727220a95

/-- Rotate a 64-bit word left by 5 bits. -/
def rotateLeft5 (h : Nat) : Nat := h % 2 ^ 59 * 2 ^ 5 + h / 2 ^ 59

/-- `FxHasher::add_to_hash`: rotate, XOR in the word, wrapping multiply by the seed. -/
def fxAddToHash (h i : Nat) : Nat := (rotateLeft5 h ^^^ i) * fxSeed % 2 ^ 64

/-- Little-endian value of a byte list (each byte reduced modulo 256, as `u8`). -/
def leValue : List Nat → Nat
  | [] => 0
  | b :: bs => b % 256 + 256 * leValue bs

/-- Tail of `FxHasher::write` once fewer than 8 bytes remain: absorb a 4-byte
chunk, then a 2-byte chunk, then a final single byte, whenever enough bytes
are left (little-endian reads, as `from_ne_bytes` on a little-endian target). -/
def fxWriteTail (h : Nat) (bytes : List Nat) : Nat :=
  let s4 := if 4 ≤ bytes.length then
      (fxAddToHash h (leValue (bytes.take 4)), bytes.drop 4) else (h, bytes)
  let s2 := if 2 ≤ s4.2.length then
      (fxAddToHash s4.1 (leValue (s4.2.take 2)), s4.2.drop 2) else s4
  if 1 ≤ s2.2.length then fxAddToHash s2.1 (leValue (s2.2.take 1)) else s2.1

/-- `FxHasher::write`: absorb full 8-byte words little-endian while at least 8
bytes remain, then the 4/2/1-byte tail. -/
def fxWrite (h : Nat) : List Nat → Nat
  | b0 :: b1 :: b2 :: b3 :: b4 :: b5 :: b6 :: b7 :: rest =>
      fxWrite (fxAddToHash h (leValue [b0, b1, b2, b3, b4, b5, b6, b7])) rest
  | bytes => fxWriteTail h bytes

/-- `FxHasher::write_u64`: absorb one 64-bit word. -/
def fxWriteU64 (h i : Nat) : Nat := fxAddToHash h (i % 2 ^ 64)

/-- `FxHasher::finish`: return the 64-bit state. -/
def fxFinish (h : Nat) : Nat := h

/-- The keyed hash exactly as both `generate_cid` and `validate` compute it:
`FxHasher::default()` (state 0), `write_u64(key)`, `write(nonce)`, `finish()`. -/
def keyedHash (key : Nat) (nonce : List Nat) : Nat :=
  fxFinish (fxWrite (fxWriteU64 0 key) nonce)

/-- `u64::to_le_bytes` truncated to `len` bytes: byte `i` is `n / 256 ^ i % 256`. -/
def toLeBytes (n len : Nat) : List Nat :=
  (List.range len).map fun i => n / 256 ^ i % 256

/-! ### Generator state and operations -/

/-- `std::time::Duration`, used only as an opaque value here. -/
abbrev Duration := Nat

/-- `InvalidCid`: zero-data marker for a failed validation. -/
structure InvalidCid
deriving DecidableEq

/-- The `ConnectionIdGenerator` trait's default `validate`: accepts every CID.
`none` would be the panic branch; this default cannot panic. -/
def defaultValidate (_cid : ConnectionId) : Option (Except InvalidCid Unit) :=
  some (Except.ok ())

deriving instance DecidableEq for Except

/-- State of `RandomConnectionIdGenerator`. -/
structure RandomConnectionIdGenerator where
  cid_len : Nat
  lifetime : Option Duration
deriving DecidableEq

/-- `Default for RandomConnectionIdGenerator`: length 8, no lifetime. -/
def RandomConnectionIdGenerator.default : RandomConnectionIdGenerator :=
  { cid_len := 8, lifetime := none }

/-- `RandomConnectionIdGenerator::new`: `debug_assert!(cid_len <= MAX_CID_SIZE)` is
embedded as a guard whose failure branch is `none`. -/
def RandomConnectionIdGenerator.new (cid_len : Nat) : Option RandomConnectionIdGenerator :=
  if cid_len ≤ MAX_CID_SIZE then
    some { RandomConnectionIdGenerator.default with cid_len := cid_len }
  else
    none

/-- `RandomConnectionIdGenerator::set_lifetime`. -/
def RandomConnectionIdGenerator.set_lifetime (g : RandomConnectionIdGenerator)
    (d : Duration) : RandomConnectionIdGenerator :=
  { g with lifetime := some d }

/-- `RandomConnectionIdGenerator::generate_cid`: a `MAX_CID_SIZE` buffer of zeros
whose first `cid_len` bytes are filled from the random source; the CID is the
first `cid_len` bytes of the buffer. -/
def RandomConnectionIdGenerator.generate_cid (g : RandomConnectionIdGenerator)
    (rng : Nat → Nat) : ConnectionId :=
  let bytes_arr := (List.range MAX_CID_SIZE).map fun i =>
    if i < g.cid_len then rng i % 256 else 0
  ConnectionId.new (bytes_arr.take g.cid_len)

/-- `RandomConnectionIdGenerator`'s `validate` is the trait default. -/
def RandomConnectionIdGenerator.validate (_ : RandomConnectionIdGenerator)
    (cid : ConnectionId) : Option (Except InvalidCid Unit) :=
  defaultValidate cid

/-- `RandomConnectionIdGenerator::cid_lifetime`. -/
def RandomConnectionIdGenerator.cid_lifetime (g : RandomConnectionIdGenerator) :
    Option Duration :=
  g.lifetime

/-- State of `HashedConnectionIdGenerator`. -/
structure HashedConnectionIdGenerator where
  key : Nat
  lifetime : Option Duration
deriving DecidableEq

/-- `HashedConnectionIdGenerator::from_key`. -/
def HashedConnectionIdGenerator.from_key (key : Nat) : HashedConnectionIdGenerator :=
  { key := key, lifetime := none }

/-- `HashedConnectionIdGenerator::set_lifetime`. -/
def HashedConnectionIdGenerator.set_lifetime (g : HashedConnectionIdGenerator)
    (d : Duration) : HashedConnectionIdGenerator :=
  { g with lifetime := some d }

/-- `HashedConnectionIdGenerator::generate_cid`: fill the first `NONCE_LEN` bytes
of an 8-byte buffer from the random source, hash the key then the nonce, and
copy the first `SIGNATURE_LEN` bytes of the digest's little-endian encoding
into the rest of the buffer. -/
def HashedConnectionIdGenerator.generate_cid (g : HashedConnectionIdGenerator)
    (rng : Nat → Nat) : ConnectionId :=
  let nonce := (List.range NONCE_LEN).map fun i => rng i % 256
  let signature := (toLeBytes (keyedHash g.key nonce) 8).take SIGNATURE_LEN
  ConnectionId.new (nonce ++ signature)

/-- `HashedConnectionIdGenerator::validate`: `split_at(NONCE_LEN)` panics (`none`)
when the CID is shorter than `NONCE_LEN`; otherwise recompute the hash from the
candidate's nonce and compare the truncated digest with the candidate's
signature bytes. -/
def HashedConnectionIdGenerator.validate (g : HashedConnectionIdGenerator)
    (cid : ConnectionId) : Option (Except InvalidCid Unit) :=
  if NONCE_LEN ≤ cid.length then
    let nonce := cid.take NONCE_LEN
    let signature := cid.drop NONCE_LEN
    let expected := toLeBytes (keyedHash g.key nonce) 8
    if expected.take SIGNATURE_LEN = signature then
      some (Except.ok ())
    else
      some (Except.error ⟨⟩)
  else
    none

/-- `HashedConnectionIdGenerator::cid_len`. -/
def HashedConnectionIdGenerator.cid_len (_ : HashedConnectionIdGenerator) : Nat :=
  NONCE_LEN + SIGNATURE_LEN

/-- `HashedConnectionIdGenerator::cid_lifetime`. -/
def HashedConnectionIdGenerator.cid_lifetime (g : HashedConnectionIdGenerator) :
    Option Duration :=
  g.lifetime

/-- The CID layout as the spec describes generation (§4.3): the nonce followed by
the low-order `SIGNATURE_LEN` bytes, little-endian, of the 64-bit keyed hash of
the key and the nonce. -/
def specHashedCid (key : Nat) (nonce : List Nat) : List Nat :=
  nonce ++ toLeBytes (keyedHash key nonce) SIGNATURE_LEN

/-! ### Helper lemmas -/

/-- `toLeBytes` produces exactly `len` bytes. -/
theorem toLeBytes_length (n len : Nat) : (toLeBytes n len).length = len := by
  simp [toLeBytes]

/-- Taking a prefix of a little-endian encoding is the shorter encoding. -/
theorem toLeBytes_take (n k j : Nat) : (toLeBytes n k).take j = toLeBytes n (min j k) := by
  simp [toLeBytes, ← List.map_take, List.take_range]

/-- `validate` accepts any CID built as a `NONCE_LEN`-byte nonce followed by the
truncated digest of the generator's own key over that nonce. -/
theorem validate_spec_cid (g : HashedConnectionIdGenerator) (nonce : List Nat)
    (hn : nonce.length = NONCE_LEN) :
    g.validate (nonce ++ (toLeBytes (keyedHash g.key nonce) 8).take SIGNATURE_LEN)
      = some (Except.ok ()) := by
  have hlen : NONCE_LEN ≤
      (nonce ++ (toLeBytes (keyedHash g.key nonce) 8).take SIGNATURE_LEN).length := by
    rw [List.length_append, hn]
    exact Nat.le_add_right _ _
  simp only [HashedConnectionIdGenerator.validate]
  rw [if_pos hlen, List.take_left' hn, List.drop_left' hn, if_pos rfl]

/-- Round trip: `validate` accepts every CID produced by `generate_cid` on the same
state, for any key and any bytes the random source returns. -/
theorem validate_generate_aux (g : HashedConnectionIdGenerator) (rng : Nat → Nat) :
    g.validate (g.generate_cid rng) = some (Except.ok ()) := by
  have hn : ((List.range NONCE_LEN).map fun i => rng i % 256).length = NONCE_LEN := by simp
  simpa only [HashedConnectionIdGenerator.generate_cid, ConnectionId.new] using
    validate_spec_cid g _ hn

/-! ### Claims -/

/-- C1: for every `HashedConnectionIdGenerator` (any 64-bit key) and every nonce the
random source may return, `validate` on the same instance accepts the CID returned
by `generate_cid`: the generator never rejects a CID it issued itself. -/
theorem hashed_generator_accepts_own_cid (g : HashedConnectionIdGenerator) (rng : Nat → Nat) :
    g.validate (g.generate_cid rng) = some (Except.ok ()) :=
  validate_generate_aux g rng

/-- C2: `generate_cid` of the hashed generator returns the 8-byte CID consisting of
the 3-byte nonce drawn from the random source followed by the low-order
`SIGNATURE_LEN` = 5 bytes (little-endian truncation) of the 64-bit keyed hash of
the key followed by the nonce bytes. -/
theorem hashed_generate_cid_layout (g : HashedConnectionIdGenerator) (rng : Nat → Nat) :
    g.generate_cid rng
        = specHashedCid g.key ((List.range NONCE_LEN).map fun i => rng i % 256) ∧
    (g.generate_cid rng).length = 8 := by
  have hmin : min SIGNATURE_LEN 8 = SIGNATURE_LEN := by decide
  constructor
  · simp only [HashedConnectionIdGenerator.generate_cid, ConnectionId.new, specHashedCid,
      toLeBytes_take, hmin]
  · simp only [HashedConnectionIdGenerator.generate_cid, ConnectionId.new, List.length_append,
      List.length_map, List.length_range, List.length_take, toLeBytes_length, hmin]
    decide

/-- C3: on an 8-byte candidate, `validate` of the hashed generator succeeds iff the
low-order 5 bytes of the keyed hash of the generator's key followed by the
candidate's first 3 bytes equal the candidate's last 5 bytes exactly, and returns
`InvalidCid` otherwise (the embedding of `validate` is a pure function of the
generator state and the candidate, reflecting its shared `&self` receiver). -/
theorem hashed_validate_iff (g : HashedConnectionIdGenerator) (cid : ConnectionId)
    (h8 : cid.length = 8) :
    (g.validate cid = some (Except.ok ()) ↔
      toLeBytes (keyedHash g.key (cid.take 3)) 5 = cid.drop 3) ∧
    (toLeBytes (keyedHash g.key (cid.take 3)) 5 ≠ cid.drop 3 →
      g.validate cid = some (Except.error ⟨⟩)) := by
  have h3 : NONCE_LEN ≤ cid.length := by rw [h8]; decide
  have hmin : min SIGNATURE_LEN 8 = SIGNATURE_LEN := by decide
  have h5 : SIGNATURE_LEN = 5 := by decide
  have hN : NONCE_LEN = 3 := by decide
  have hmin5 : (5 : Nat) ⊓ 8 = 5 := by decide
  simp only [HashedConnectionIdGenerator.validate, toLeBytes_take, hmin, h5, hN, hmin5]
  rw [if_pos (hN ▸ h3)]
  by_cases hc : toLeBytes (keyedHash g.key (cid.take 3)) 5 = cid.drop 3
  · rw [if_pos hc]
    exact ⟨by simp [hc], fun h => absurd hc h⟩
  · rw [if_neg hc]
    exact ⟨by simp [hc], fun _ => rfl⟩

/-- C3 witness: the validate characterization instantiated at key 0 and the all-zero
8-byte candidate. -/
theorem hashed_validate_iff_witness :
    ((HashedConnectionIdGenerator.from_key 0).validate (ConnectionId.new [0,0,0,0,0,0,0,0])
        = some (Except.ok ()) ↔
      toLeBytes (keyedHash (HashedConnectionIdGenerator.from_key 0).key
          ((ConnectionId.new [0,0,0,0,0,0,0,0]).take 3)) 5
        = (ConnectionId.new [0,0,0,0,0,0,0,0]).drop 3) ∧
    (toLeBytes (keyedHash (HashedConnectionIdGenerator.from_key 0).key
          ((ConnectionId.new [0,0,0,0,0,0,0,0]).take 3)) 5
        ≠ (ConnectionId.new [0,0,0,0,0,0,0,0]).drop 3 →
      (HashedConnectionIdGenerator.from_key 0).validate (ConnectionId.new [0,0,0,0,0,0,0,0])
        = some (Except.error ⟨⟩)) :=
  hashed_validate_iff (HashedConnectionIdGenerator.from_key 0)
    (ConnectionId.new [0,0,0,0,0,0,0,0]) (by decide)

/-- C4: the result of the hashed generator's `validate` depends only on the key and
the CID bytes, so two instances built by `from_key` on the same key accept each
other's issued CIDs. -/
theorem hashed_validate_key_only (g₁ g₂ : HashedConnectionIdGenerator) (cid : ConnectionId)
    (hk : g₁.key = g₂.key) (k : Nat) (rng : Nat → Nat) :
    g₁.validate cid = g₂.validate cid ∧
    (HashedConnectionIdGenerator.from_key k).validate
        ((HashedConnectionIdGenerator.from_key k).generate_cid rng) = some (Except.ok ()) := by
  refine ⟨?_, validate_generate_aux _ rng⟩
  simp only [HashedConnectionIdGenerator.validate, hk]

/-- C4 witness: two distinct instances with key 3 (one with a lifetime configured)
agree on a concrete candidate, and a `from_key` instance accepts its own CID. -/
theorem hashed_validate_key_only_witness :
    ((HashedConnectionIdGenerator.from_key 3).validate (ConnectionId.new [1,2,3,4,5,6,7,8])
        = ((HashedConnectionIdGenerator.from_key 3).set_lifetime 9).validate
            (ConnectionId.new [1,2,3,4,5,6,7,8])) ∧
    (HashedConnectionIdGenerator.from_key 3).validate
        ((HashedConnectionIdGenerator.from_key 3).generate_cid (fun i => i))
      = some (Except.ok ()) :=
  hashed_validate_key_only (HashedConnectionIdGenerator.from_key 3)
    ((HashedConnectionIdGenerator.from_key 3).set_lifetime 9)
    (ConnectionId.new [1,2,3,4,5,6,7,8]) rfl 3 (fun i => i)

/-- C5: for every configured length L in [1, 20], a successfully constructed random
generator produces CIDs of exactly L bytes, reports `cid_len` = L, and the length
survives `set_lifetime`, the only state-modifying operation besides construction. -/
theorem random_generated_cid_has_configured_len (L : Nat) (rng : Nat → Nat)
    (g : RandomConnectionIdGenerator) (h1 : 1 ≤ L) (h2 : L ≤ 20)
    (hg : RandomConnectionIdGenerator.new L = some g) :
    (g.generate_cid rng).length = L ∧ g.cid_len = L ∧
      ∀ d : Duration, (g.set_lifetime d).cid_len = L := by
  have hmax : L ≤ MAX_CID_SIZE := by simpa [MAX_CID_SIZE] using h2
  rw [RandomConnectionIdGenerator.new, if_pos hmax] at hg
  cases hg
  refine ⟨?_, rfl, fun d => rfl⟩
  simp only [RandomConnectionIdGenerator.generate_cid, ConnectionId.new, List.length_take,
    List.length_map, List.length_range, MAX_CID_SIZE]
  omega

/-- C5 witness: length 8, a concrete random stream, and a concrete lifetime. -/
theorem random_generated_cid_has_configured_len_witness :
    ((RandomConnectionIdGenerator.mk 8 none).generate_cid (fun _ => 7)).length = 8 ∧
    (RandomConnectionIdGenerator.mk 8 none).cid_len = 8 ∧
    ((RandomConnectionIdGenerator.mk 8 none).set_lifetime 5).cid_len = 8 :=
  have h := random_generated_cid_has_configured_len 8 (fun _ => 7)
    (RandomConnectionIdGenerator.mk 8 none) (by decide) (by decide) (by decide)
  ⟨h.1, h.2.1, h.2.2 5⟩

/-- C6: the random generator's `validate` accepts every input CID, of any content
and length, and is exactly the trait's default implementation. -/
theorem random_validate_accepts_everything (g : RandomConnectionIdGenerator)
    (cid : ConnectionId) :
    g.validate cid = some (Except.ok ()) ∧ g.validate cid = defaultValidate cid :=
  ⟨rfl, rfl⟩

/-- C7: for both variants, `cid_lifetime` returns the duration passed to the most
recent `set_lifetime` call (from any prior state), and `none` straight after
construction by `new` or `from_key`. -/
theorem cid_lifetime_last_configured (gr : RandomConnectionIdGenerator)
    (gh : HashedConnectionIdGenerator) (d : Duration) (L k : Nat)
    (g0 : RandomConnectionIdGenerator)
    (hg : RandomConnectionIdGenerator.new L = some g0) :
    (gr.set_lifetime d).cid_lifetime = some d ∧
    (gh.set_lifetime d).cid_lifetime = some d ∧
    g0.cid_lifetime = none ∧
    (HashedConnectionIdGenerator.from_key k).cid_lifetime = none := by
  refine ⟨rfl, rfl, ?_, rfl⟩
  rw [RandomConnectionIdGenerator.new] at hg
  by_cases hL : L ≤ MAX_CID_SIZE
  · rw [if_pos hL] at hg
    cases hg
    rfl
  · rw [if_neg hL] at hg
    cases hg

/-- C7 witness: both variants at concrete durations, fresh and reconfigured. -/
theorem cid_lifetime_last_configured_witness :
    ((RandomConnectionIdGenerator.mk 4 none).set_lifetime 11).cid_lifetime = some 11 ∧
    ((HashedConnectionIdGenerator.from_key 2).set_lifetime 11).cid_lifetime = some 11 ∧
    (RandomConnectionIdGenerator.mk 4 none).cid_lifetime = none ∧
    (HashedConnectionIdGenerator.from_key 2).cid_lifetime = none :=
  cid_lifetime_last_configured (RandomConnectionIdGenerator.mk 4 none)
    (HashedConnectionIdGenerator.from_key 2) 11 4 2
    (RandomConnectionIdGenerator.mk 4 none) (by decide)

/-- C8: the constructor's checked precondition: under `cid_len ≤ MAX_CID_SIZE`
construction succeeds (the assertion holds), while requesting a length above the
protocol maximum fails the assertion (the embedding's panic branch `none`). -/
theorem random_new_checks_max_cid_size (L : Nat) :
    (L ≤ MAX_CID_SIZE →
      RandomConnectionIdGenerator.new L = some { cid_len := L, lifetime := none }) ∧
    (MAX_CID_SIZE < L → RandomConnectionIdGenerator.new L = none) := by
  constructor
  · intro h
    rw [RandomConnectionIdGenerator.new, if_pos h]
    rfl
  · intro h
    rw [RandomConnectionIdGenerator.new, if_neg (by omega)]

/-- C8 witness: the boundary length 20 succeeds and 21 fails the precondition. -/
theorem random_new_checks_max_cid_size_witness :
    RandomConnectionIdGenerator.new 20 = some { cid_len := 20, lifetime := none } ∧
    RandomConnectionIdGenerator.new 21 = none :=
  ⟨(random_new_checks_max_cid_size 20).1 (by decide),
   (random_new_checks_max_cid_size 21).2 (by decide)⟩

/-- C9: `set_lifetime` modifies only the lifetime field: the random generator's
`cid_len` and the hashed generator's `key` are unchanged. -/
theorem set_lifetime_only_touches_lifetime (gr : RandomConnectionIdGenerator)
    (gh : HashedConnectionIdGenerator) (d : Duration) :
    (gr.set_lifetime d).cid_len = gr.cid_len ∧
    (gh.set_lifetime d).key = gh.key :=
  ⟨rfl, rfl⟩

/-- C10: the hashed generator's `validate` is partial in the candidate's length:
below `NONCE_LEN` = 3 bytes the `split_at` panics (the embedding's `none` branch),
and for any length that is at least 3 but not 8 it always returns `InvalidCid`,
because a 5-byte truncated digest never equals a signature of a different length. -/
theorem hashed_validate_length_cases (g : HashedConnectionIdGenerator) (cid : ConnectionId) :
    (cid.length < NONCE_LEN → g.validate cid = none) ∧
    (NONCE_LEN ≤ cid.length → cid.length ≠ 8 → g.validate cid = some (Except.error ⟨⟩)) := by
  constructor
  · intro h
    simp only [HashedConnectionIdGenerator.validate]
    rw [if_neg (by omega)]
  · intro h3 h8
    simp only [HashedConnectionIdGenerator.validate]
    rw [if_pos h3, if_neg]
    intro heq
    have hlen := congrArg List.length heq
    simp only [List.length_take, List.length_drop, toLeBytes_length] at hlen
    have h5 : SIGNATURE_LEN = 5 := by decide
    have hN : NONCE_LEN = 3 := by decide
    rw [h5, hN] at hlen
    have hmin5 : (5 : Nat) ⊓ 8 = 5 := by decide
    rw [hmin5] at hlen
    rw [hN] at h3
    omega

/-- C10 witness: a 1-byte candidate reaches the panic branch and a 4-byte candidate
is rejected as `InvalidCid`. -/
theorem hashed_validate_length_cases_witness :
    (HashedConnectionIdGenerator.from_key 0).validate (ConnectionId.new [1]) = none ∧
    (HashedConnectionIdGenerator.from_key 0).validate (ConnectionId.new [1,2,3,4])
      = some (Except.error ⟨⟩) :=
  ⟨(hashed_validate_length_cases (HashedConnectionIdGenerator.from_key 0)
      (ConnectionId.new [1])).1 (by decide),
   (hashed_validate_length_cases (HashedConnectionIdGenerator.from_key 0)
      (ConnectionId.new [1,2,3,4])).2 (by decide) (by decide)⟩
